import Mathlib

/-!
Verification of the klondike-spec-cli repository against its
natural-language specification.

The development shallowly embeds the Python sources:
* `src/klondike_spec_cli/git.py` — subprocess-backed git helpers;
* `src/klondike_spec_cli/models.py` — feature registry data model;
and models (from the specification's words) the worktree session
manager, whose module `commands/copilot_cmd.py` is only imported by
`cli.py` and is not among the provided sources.

External processes are modelled by an oracle (`GitWorld`) giving the
outcome of each command the embedded code may issue; Python exceptions
are modelled by the `PyExn` type and `Except`.
-/

namespace Klondike

/-- Python exceptions that the embedded code can raise or catch.
`permissionError` and `notADirectoryError` are raised by
`subprocess.run` (unstartable executable, respectively a regular file
passed as `cwd`) and are not subclasses of `FileNotFoundError`, so the
`except (FileNotFoundError, subprocess.TimeoutExpired)` clauses in
`git.py` do not catch them. -/
inductive PyExn where
  | fileNotFoundError (msg : String)
  | timeoutExpired (msg : String)
  | permissionError (msg : String)
  | notADirectoryError (msg : String)
  | indexError
  | keyError (key : String)
  | valueError (msg : String)
  | typeError
deriving Repr, DecidableEq

/-- Result of a subprocess that started and terminated
(mirrors Python `subprocess.CompletedProcess` as used with
`capture_output=True, text=True`). -/
structure ProcResult where
  returncode : Int
  stdout : String
  stderr : String
deriving Repr, DecidableEq

/-- Outcome of attempting `subprocess.run`: the process completed, the
executable could not be found (`FileNotFoundError`), the timeout
expired (`subprocess.TimeoutExpired`), the executable existed but
could not be started (`PermissionError`), or the `cwd` passed to
`subprocess.run` was a regular file (`NotADirectoryError`).  The
carried string is `str(e)` of the corresponding Python exception.
Only the first three are handled by the `except` clauses in `git.py`;
the last two propagate out of its functions. -/
inductive ProcOutcome where
  | completed (r : ProcResult)
  | fileNotFound (msg : String)
  | timedOut (msg : String)
  | permissionDenied (msg : String)
  | notADirectory (msg : String)
deriving Repr, DecidableEq

/-- The environment one run of the embedded `git.py` helpers sees: the
outcome of each external command the module can issue.  Commands run
with a `cwd=` keyword are oracles indexed by that working directory
(so a regular-file path can map to `notADirectory`); `git --version`
is run without `cwd`.  `cwd` is the process working directory
`Path.cwd()`, the default when the `path` argument is `None`. -/
structure GitWorld where
  /-- the process working directory `Path.cwd()` -/
  cwd : String
  /-- outcome of `git --version` (run without `cwd`) -/
  version : ProcOutcome
  /-- outcome of `git rev-parse --git-dir` at a working directory -/
  revParseGitDir : String → ProcOutcome
  /-- outcome of `git rev-parse --abbrev-ref HEAD` at a working directory -/
  revParseHead : String → ProcOutcome
  /-- outcome of `git status --porcelain` at a working directory -/
  statusPorcelain : String → ProcOutcome
  /-- outcome of `git log -<count> --format=... --date=short` at a working directory -/
  logCmd : String → ProcOutcome
  /-- outcome of `git add -A` at a working directory -/
  addAllCmd : String → ProcOutcome
  /-- outcome of `git commit -m <message>` at a working directory -/
  commitCmd : String → String → ProcOutcome

/-- One recorded subprocess invocation: the argument vector and the
`timeout=` keyword passed to `subprocess.run` (in seconds). -/
structure Call where
  argv : List String
  timeoutSecs : Option Nat
deriving Repr, DecidableEq

/-- Strips leading and trailing whitespace characters from a character
list. -/
def stripList (l : List Char) : List Char :=
  ((l.dropWhile Char.isWhitespace).reverse.dropWhile Char.isWhitespace).reverse

/-- Models Python `str.strip()` (whitespace on both ends). -/
def pyStrip (s : String) : String :=
  String.mk (stripList s.toList)

/-- Splits a character list on a separator character; Python `split`
semantics: the empty input yields one empty part, and separators at the
ends yield empty parts. -/
def splitCharAux (sep : Char) : List Char → List Char → List String
  | [], cur => [String.mk cur.reverse]
  | c :: rest, cur =>
    if c = sep then String.mk cur.reverse :: splitCharAux sep rest []
    else splitCharAux sep rest (c :: cur)

/-- Models Python `s.split(sep)` for a one-character separator. -/
def pySplitOnChar (sep : Char) (s : String) : List String :=
  splitCharAux sep s.toList []

/-- Whether the second list is an initial segment of the first. -/
def listStartsWith : List Char → List Char → Bool
  | _, [] => true
  | [], _ :: _ => false
  | a :: as, b :: bs => a = b && listStartsWith as bs

/-- Models Python `s.startswith(pat)`. -/
def pyStartsWith (s pat : String) : Bool :=
  listStartsWith s.toList pat.toList

/-- Models Python slicing `s[n:]` (by characters). -/
def pyDropChars (s : String) (n : Nat) : String :=
  String.mk (s.toList.drop n)

/-- Embeds `git.GitStatus`: a dataclass with the listed defaults. -/
structure GitStatus where
  is_git_repo : Bool := false
  has_uncommitted_changes : Bool := false
  staged_count : Nat := 0
  unstaged_count : Nat := 0
  untracked_count : Nat := 0
  current_branch : Option String := none
  error : Option String := none
deriving Repr, DecidableEq

/-- Embeds `git.GitCommit`. -/
structure GitCommit where
  hash : String
  short_hash : String
  message : String
  author : String
  date : String
deriving Repr, DecidableEq

/-- Embeds `git.is_git_installed`: runs `git --version` with
`timeout=5`; returns `returncode == 0`, and `False` when
`FileNotFoundError` or `TimeoutExpired` is caught; a `PermissionError`
or `NotADirectoryError` is not caught and propagates.  The second
component records the subprocess invocations made. -/
def is_git_installed (w : GitWorld) : Except PyExn Bool × List Call :=
  let c : Call := ⟨["git", "--version"], some 5⟩
  match w.version with
  | .completed r => (.ok (r.returncode == 0), [c])
  | .fileNotFound _ => (.ok false, [c])
  | .timedOut _ => (.ok false, [c])
  | .permissionDenied m => (.error (.permissionError m), [c])
  | .notADirectory m => (.error (.notADirectoryError m), [c])

/-- Embeds `git.is_git_repo`: `cwd = path or Path.cwd()`, then runs
`git rev-parse --git-dir` with `timeout=5` at `cwd`; returns
`returncode == 0`, and `False` when `FileNotFoundError` or
`TimeoutExpired` is caught; a `PermissionError` or — when `cwd` is a
regular file — `NotADirectoryError` is not caught and propagates. -/
def is_git_repo (w : GitWorld) (path : Option String) : Except PyExn Bool × List Call :=
  let cwd := path.getD w.cwd
  let c : Call := ⟨["git", "rev-parse", "--git-dir"], some 5⟩
  match w.revParseGitDir cwd with
  | .completed r => (.ok (r.returncode == 0), [c])
  | .fileNotFound _ => (.ok false, [c])
  | .timedOut _ => (.ok false, [c])
  | .permissionDenied m => (.error (.permissionError m), [c])
  | .notADirectory m => (.error (.notADirectoryError m), [c])

/-- Embeds the porcelain-parsing loop of `git.get_git_status`: for each
non-empty line, set `has_uncommitted_changes`, read `line[0]` and
`line[1]`, and update the three counters.  Python's `line[1]` raises
`IndexError` when the line has exactly one character, which the
surrounding `except` clause (catching only `FileNotFoundError` and
`TimeoutExpired`) does not intercept. -/
def parseStatusLines (status : GitStatus) : List String → Except PyExn GitStatus
  | [] => .ok status
  | line :: rest =>
    if line = "" then
      parseStatusLines status rest
    else
      match line.toList with
      | c0 :: c1 :: _ =>
        let s1 := { status with has_uncommitted_changes := true }
        let s2 := if c0 ≠ ' ' ∧ c0 ≠ '?' then { s1 with staged_count := s1.staged_count + 1 } else s1
        let s3 := if c1 ≠ ' ' ∧ c1 ≠ '?' then { s2 with unstaged_count := s2.unstaged_count + 1 } else s2
        let s4 := if c0 = '?' ∧ c1 = '?' then { s3 with untracked_count := s3.untracked_count + 1 } else s3
        parseStatusLines s4 rest
      | _ => .error .indexError

/-- Embeds the current-branch block of `git.get_git_status`: on exit
code 0 record the stripped branch name; on a caught
`FileNotFoundError` or `TimeoutExpired` the `except` clause passes and
the field stays at its default; a `PermissionError` or
`NotADirectoryError` is not caught and propagates. -/
def branchStatus (o : ProcOutcome) : Except PyExn GitStatus :=
  match o with
  | .completed r =>
    if r.returncode == 0 then
      .ok { is_git_repo := true, current_branch := some (pyStrip r.stdout) }
    else
      .ok { is_git_repo := true }
  | .fileNotFound _ => .ok { is_git_repo := true }
  | .timedOut _ => .ok { is_git_repo := true }
  | .permissionDenied m => .error (.permissionError m)
  | .notADirectory m => .error (.notADirectoryError m)

/-- Embeds `git.get_git_status`.  `cwd = path or Path.cwd()`.  Returns
`GitStatus(error="Git is not installed")` when git is missing and
`GitStatus(error="Not a git repository")` when `cwd` is not in a
repository; otherwise queries the current branch (`timeout=5`,
`FileNotFoundError`/`TimeoutExpired` passed over) and the porcelain
status (`timeout=10`, same handling) at `cwd` and counts the entries.
A `PermissionError` or `NotADirectoryError` raised by any of the
subprocess calls propagates out of the function uncaught. -/
def get_git_status (w : GitWorld) (path : Option String) : Except PyExn GitStatus × List Call :=
  let cwd := path.getD w.cwd
  let inst := is_git_installed w
  match inst.1 with
  | .error e => (.error e, inst.2)
  | .ok instb =>
    if instb = false then
      (.ok { error := some "Git is not installed" }, inst.2)
    else
      let repo := is_git_repo w (some cwd)
      match repo.1 with
      | .error e => (.error e, inst.2 ++ repo.2)
      | .ok repob =>
        if repob = false then
          (.ok { error := some "Not a git repository" }, inst.2 ++ repo.2)
        else
          let cBranch : Call := ⟨["git", "rev-parse", "--abbrev-ref", "HEAD"], some 5⟩
          match branchStatus (w.revParseHead cwd) with
          | .error e => (.error e, inst.2 ++ repo.2 ++ [cBranch])
          | .ok status1 =>
            let cStatus : Call := ⟨["git", "status", "--porcelain"], some 10⟩
            let result : Except PyExn GitStatus :=
              match w.statusPorcelain cwd with
              | .completed r =>
                if r.returncode == 0 then
                  parseStatusLines status1 (pySplitOnChar '\n' (pyStrip r.stdout))
                else
                  .ok status1
              | .fileNotFound _ => .ok status1
              | .timedOut _ => .ok status1
              | .permissionDenied m => .error (.permissionError m)
              | .notADirectory m => .error (.notADirectoryError m)
            (result, inst.2 ++ repo.2 ++ [cBranch, cStatus])

/-- Python `line.split("|", 4)`: at most four splits, the remainder is
kept whole in the fifth part. -/
def splitPipeMax4 (line : String) : List String :=
  let ps := pySplitOnChar '|' line
  if ps.length ≤ 5 then ps else ps.take 4 ++ [String.intercalate "|" (ps.drop 4)]

/-- Embeds the line-parsing loop of `git.get_recent_commits`. -/
def parseCommitLines (lines : List String) : List GitCommit :=
  lines.filterMap fun line =>
    if line = "" then none
    else
      match splitPipeMax4 line with
      | p0 :: p1 :: p2 :: p3 :: p4 :: _ => some ⟨p0, p1, p2, p3, p4⟩
      | _ => none

/-- Embeds `git.get_recent_commits`: `cwd = path or Path.cwd()`;
returns `[]` when `cwd` is not in a repository; otherwise runs
`git log -<count> --format=%H|%h|%s|%an|%ad --date=short` with
`timeout=10` at `cwd` and parses the lines, returning the commits
accumulated so far (none) when `FileNotFoundError` or `TimeoutExpired`
is caught; a `PermissionError` or `NotADirectoryError` propagates. -/
def get_recent_commits (w : GitWorld) (count : Nat) (path : Option String) :
    Except PyExn (List GitCommit) × List Call :=
  let cwd := path.getD w.cwd
  let repo := is_git_repo w (some cwd)
  match repo.1 with
  | .error e => (.error e, repo.2)
  | .ok repob =>
    if repob = false then
      (.ok [], repo.2)
    else
      let c : Call := ⟨["git", "log", "-" ++ toString count, "--format=%H|%h|%s|%an|%ad", "--date=short"], some 10⟩
      match w.logCmd cwd with
      | .completed r =>
        (.ok (if r.returncode == 0 then parseCommitLines (pySplitOnChar '\n' (pyStrip r.stdout)) else []),
         repo.2 ++ [c])
      | .fileNotFound _ => (.ok [], repo.2 ++ [c])
      | .timedOut _ => (.ok [], repo.2 ++ [c])
      | .permissionDenied m => (.error (.permissionError m), repo.2 ++ [c])
      | .notADirectory m => (.error (.notADirectoryError m), repo.2 ++ [c])

/-- Embeds `git.git_add_all`: runs `git add -A` with `timeout=10` at
`cwd = path or Path.cwd()`; returns `returncode == 0`, and `False`
when `FileNotFoundError` or `TimeoutExpired` is caught; a
`PermissionError` or `NotADirectoryError` propagates. -/
def git_add_all (w : GitWorld) (path : Option String) : Except PyExn Bool × List Call :=
  let cwd := path.getD w.cwd
  let c : Call := ⟨["git", "add", "-A"], some 10⟩
  match w.addAllCmd cwd with
  | .completed r => (.ok (r.returncode == 0), [c])
  | .fileNotFound _ => (.ok false, [c])
  | .timedOut _ => (.ok false, [c])
  | .permissionDenied m => (.error (.permissionError m), [c])
  | .notADirectory m => (.error (.notADirectoryError m), [c])

/-- Embeds `git.git_commit`: runs `git commit -m <message>` with
`timeout=30` at `cwd = path or Path.cwd()`.  On exit code 0 returns
`(True, stdout.strip())`; on a non-zero exit code returns
`(False, stderr.strip() or stdout.strip())`; when `FileNotFoundError`
or `TimeoutExpired` is caught it returns `(False, str(e))`; a
`PermissionError` or `NotADirectoryError` propagates. -/
def git_commit (w : GitWorld) (message : String) (path : Option String) :
    Except PyExn (Bool × String) × List Call :=
  let cwd := path.getD w.cwd
  let c : Call := ⟨["git", "commit", "-m", message], some 30⟩
  match w.commitCmd cwd message with
  | .completed r =>
    if r.returncode == 0 then
      (.ok (true, pyStrip r.stdout), [c])
    else
      (.ok (false, if pyStrip r.stderr = "" then pyStrip r.stdout else pyStrip r.stderr), [c])
  | .fileNotFound m => (.ok (false, m), [c])
  | .timedOut m => (.ok (false, m), [c])
  | .permissionDenied m => (.error (.permissionError m), [c])
  | .notADirectory m => (.error (.notADirectoryError m), [c])

/-- Embeds `models.FeatureStatus`, a string-valued enum. -/
inductive FeatureStatus where
  | notStarted
  | inProgress
  | blocked
  | verified
deriving Repr, DecidableEq

/-- The `.value` of a `FeatureStatus` member. -/
def FeatureStatus.value : FeatureStatus → String
  | .notStarted => "not-started"
  | .inProgress => "in-progress"
  | .blocked => "blocked"
  | .verified => "verified"

/-- Embeds `models.FeatureCategory`, a string-valued enum. -/
inductive FeatureCategory where
  | core
  | ui
  | api
  | testing
  | infrastructure
  | docs
  | security
  | performance
deriving Repr, DecidableEq

/-- The `.value` of a `FeatureCategory` member. -/
def FeatureCategory.value : FeatureCategory → String
  | .core => "core"
  | .ui => "ui"
  | .api => "api"
  | .testing => "testing"
  | .infrastructure => "infrastructure"
  | .docs => "docs"
  | .security => "security"
  | .performance => "performance"

/-- JSON-like values occurring in the serialized dictionaries of
`models.py` (strings, ints, bools, lists of strings, `None`). -/
inductive JValue where
  | null
  | str (s : String)
  | int (n : Int)
  | bool (b : Bool)
  | strList (l : List String)
deriving Repr, DecidableEq

/-- A Python dict with string keys, as an association list. -/
def Dict := List (String × JValue)

/-- Key lookup; `none` when the key is absent. -/
def dictFind : Dict → String → Option JValue
  | [], _ => none
  | (k, v) :: rest, key => if k = key then some v else dictFind rest key

/-- Python `data.get(key, default)`: the default applies only when the
key is absent (a stored `None` is returned as `None`). -/
def pyGet (d : Dict) (key : String) (default : JValue) : JValue :=
  (dictFind d key).getD default

/-- Python `data[key]`: raises `KeyError` when the key is absent. -/
def pyIndex (d : Dict) (key : String) : Except PyExn JValue :=
  match dictFind d key with
  | some v => .ok v
  | none => .error (.keyError key)

/-- Python enum construction `FeatureStatus(v)`: raises `ValueError`
when `v` is not the value of a member. -/
def FeatureStatus.ofJValue : JValue → Except PyExn FeatureStatus
  | .str "not-started" => .ok .notStarted
  | .str "in-progress" => .ok .inProgress
  | .str "blocked" => .ok .blocked
  | .str "verified" => .ok .verified
  | _ => .error (.valueError "is not a valid FeatureStatus")

/-- Python enum construction `FeatureCategory(v)`: raises `ValueError`
when `v` is not the value of a member. -/
def FeatureCategory.ofJValue : JValue → Except PyExn FeatureCategory
  | .str "core" => .ok .core
  | .str "ui" => .ok .ui
  | .str "api" => .ok .api
  | .str "testing" => .ok .testing
  | .str "infrastructure" => .ok .infrastructure
  | .str "docs" => .ok .docs
  | .str "security" => .ok .security
  | .str "performance" => .ok .performance
  | _ => .error (.valueError "is not a valid FeatureCategory")

/-- The `blocked_by` field's Python type `str | list[str] | None`. -/
inductive BlockedBy where
  | absent
  | one (s : String)
  | many (l : List String)
deriving Repr, DecidableEq

/-- Embeds `models.Feature`.  The `category` and `status` fields are
annotated with the enum types in the dataclass, but `to_dict` guards
them with `isinstance` checks, so the model gives them the union type
`enum ⊕ str`; every other field follows its dataclass annotation
(Python does not check annotations at runtime, and every construction
site in the program respects them). -/
structure Feature where
  id : String
  description : String
  category : Sum FeatureCategory String
  priority : Int
  acceptance_criteria : List String
  passes : Bool := false
  status : Sum FeatureStatus String := Sum.inl .notStarted
  dependencies : List String := []
  estimated_effort : Option String := none
  verified_at : Option String := none
  verified_by : Option String := none
  evidence_links : List String := []
  blocked_by : BlockedBy := .absent
  last_worked_on : Option String := none
  notes : Option String := none
deriving Repr, DecidableEq

/-- Encoding of `str | None` fields into the serialized dict. -/
def jOptStr : Option String → JValue
  | none => .null
  | some s => .str s

/-- Encoding of the `blocked_by` field into the serialized dict. -/
def jBlockedBy : BlockedBy → JValue
  | .absent => .null
  | .one s => .str s
  | .many l => .strList l

/-- Embeds `models.Feature.to_dict`: the camelCase dictionary, with the
`isinstance` guards on `category` and `status` (an enum member is
serialized through `.value`, a plain string is passed through). -/
def Feature.to_dict (f : Feature) : Dict :=
  [("id", .str f.id),
   ("category", .str (match f.category with | .inl c => c.value | .inr s => s)),
   ("priority", .int f.priority),
   ("description", .str f.description),
   ("dependencies", .strList f.dependencies),
   ("acceptanceCriteria", .strList f.acceptance_criteria),
   ("estimatedEffort", jOptStr f.estimated_effort),
   ("status", .str (match f.status with | .inl s => s.value | .inr s => s)),
   ("passes", .bool f.passes),
   ("verifiedAt", jOptStr f.verified_at),
   ("verifiedBy", jOptStr f.verified_by),
   ("evidenceLinks", .strList f.evidence_links),
   ("blockedBy", jBlockedBy f.blocked_by),
   ("lastWorkedOn", jOptStr f.last_worked_on),
   ("notes", jOptStr f.notes)]

/-- Decoder for fields the model types as `String`; a value of another
shape is a modelling-level `typeError` (unreachable on `to_dict`
output). -/
def asStr : JValue → Except PyExn String
  | .str s => .ok s
  | _ => .error .typeError

/-- Decoder for `int`-typed fields. -/
def asInt : JValue → Except PyExn Int
  | .int n => .ok n
  | _ => .error .typeError

/-- Decoder for `bool`-typed fields. -/
def asBool : JValue → Except PyExn Bool
  | .bool b => .ok b
  | _ => .error .typeError

/-- Decoder for `list[str]`-typed fields. -/
def asStrList : JValue → Except PyExn (List String)
  | .strList l => .ok l
  | _ => .error .typeError

/-- Decoder for `str | None`-typed fields. -/
def asOptStr : JValue → Except PyExn (Option String)
  | .null => .ok none
  | .str s => .ok (some s)
  | _ => .error .typeError

/-- Decoder for the `blocked_by` field. -/
def asBlockedBy : JValue → Except PyExn BlockedBy
  | .null => .ok .absent
  | .str s => .ok (.one s)
  | .strList l => .ok (.many l)
  | _ => .error .typeError

/-- Embeds `models.Feature.from_dict`, keyword arguments evaluated in
source order: `data["id"]` and `data["description"]` raise `KeyError`
when absent, the enum constructors raise `ValueError` on invalid
values, and all other keys are read with `data.get` and the listed
defaults. -/
def Feature.from_dict (d : Dict) : Except PyExn Feature := do
  let id ← asStr (← pyIndex d "id")
  let description ← asStr (← pyIndex d "description")
  let category ← FeatureCategory.ofJValue (pyGet d "category" (.str "core"))
  let priority ← asInt (pyGet d "priority" (.int 2))
  let acceptance_criteria ← asStrList (pyGet d "acceptanceCriteria" (.strList []))
  let passes ← asBool (pyGet d "passes" (.bool false))
  let status ← FeatureStatus.ofJValue (pyGet d "status" (.str "not-started"))
  let dependencies ← asStrList (pyGet d "dependencies" (.strList []))
  let estimated_effort ← asOptStr (pyGet d "estimatedEffort" .null)
  let verified_at ← asOptStr (pyGet d "verifiedAt" .null)
  let verified_by ← asOptStr (pyGet d "verifiedBy" .null)
  let evidence_links ← asStrList (pyGet d "evidenceLinks" (.strList []))
  let blocked_by ← asBlockedBy (pyGet d "blockedBy" .null)
  let last_worked_on ← asOptStr (pyGet d "lastWorkedOn" .null)
  let notes ← asOptStr (pyGet d "notes" .null)
  return { id := id, description := description, category := Sum.inl category,
           priority := priority, acceptance_criteria := acceptance_criteria,
           passes := passes, status := Sum.inl status, dependencies := dependencies,
           estimated_effort := estimated_effort, verified_at := verified_at,
           verified_by := verified_by, evidence_links := evidence_links,
           blocked_by := blocked_by, last_worked_on := last_worked_on, notes := notes }

/-- Embeds `models.FeatureMetadata`. -/
structure FeatureMetadata where
  created_at : String
  last_updated : String
  total_features : Int
  passing_features : Int
deriving Repr, DecidableEq

/-- Embeds `models.FeatureRegistry`. -/
structure FeatureRegistry where
  project_name : String
  version : String
  features : List Feature
  metadata : FeatureMetadata
deriving Repr, DecidableEq

/-- Python `f"F{i:03d}"`: `F` followed by `i` zero-padded to at least
three digits. -/
def candidateId (i : Nat) : String :=
  let s := toString i
  "F" ++ (if s.length < 3 then String.mk (List.replicate (3 - s.length) '0') ++ s else s)

/-- The loop of `FeatureRegistry.next_feature_id`: try the candidates
`candidateId i, candidateId (i+1), ...` for `fuel` iterations,
returning the first one not among the existing ids, and raising
`ValueError` when the iterations are exhausted. -/
def nextIdFrom (existing : List String) (i : Nat) : Nat → Except PyExn String
  | 0 => .error (.valueError "No available feature IDs")
  | fuel + 1 =>
    if existing.contains (candidateId i) then nextIdFrom existing (i + 1) fuel
    else .ok (candidateId i)

/-- Embeds `models.FeatureRegistry.next_feature_id`: iterates
`for i in range(1, 1000)` over candidates `f"F{i:03d}"` against the set
of existing feature ids. -/
def FeatureRegistry.next_feature_id (reg : FeatureRegistry) : Except PyExn String :=
  nextIdFrom (reg.features.map (fun f => f.id)) 1 999

/-- Modelled from the spec: `commands/copilot_cmd.py` (the worktree
session manager imported by `cli.py`) is not among the provided
sources.  §4.2 WorktreeNaming `slug`: the feature id if non-empty, else
the session name if non-empty, else the literal `"session"`,
lower-cased with every non-alphanumeric character replaced by `-`. -/
def slug (feature_id session_name : String) : String :=
  let base :=
    if feature_id ≠ "" then feature_id
    else if session_name ≠ "" then session_name
    else "session"
  String.mk (base.toList.map (fun ch => if ch.toLower.isAlphanum then ch.toLower else '-'))

/-- Modelled from the spec: §4.2 WorktreeNaming `branch_name`:
`"klondike/" + slug + "-" + random_hex(8)`; the random eight-character
hex suffix is a parameter of the model. -/
def branchNameOf (slugStr : String) (hex8 : String) : String :=
  "klondike/" ++ slugStr ++ "-" ++ hex8

/-- One parsed entry of `git worktree list --porcelain` output. -/
structure WtEntry where
  path : String
  head : Option String
  branch : Option String
deriving Repr, DecidableEq

/-- Groups porcelain output lines into blank-line-separated blocks
(the accumulator holds the current block in reverse). -/
def splitBlocksAux : List String → List String → List (List String)
  | [], cur => if cur = [] then [] else [cur.reverse]
  | line :: rest, cur =>
    if line = "" then
      if cur = [] then splitBlocksAux rest []
      else cur.reverse :: splitBlocksAux rest []
    else
      splitBlocksAux rest (line :: cur)

/-- Drops git's `refs/heads/` ref prefix from a porcelain `branch`
field value. -/
def stripRefsHeads (b : String) : String :=
  if pyStartsWith b "refs/heads/" then pyDropChars b 11 else b

/-- Modelled from the spec: §4.3 block parsing — a block yields an
entry when it has a `worktree` field; the `HEAD` and `branch` fields
are optional (a detached-HEAD worktree has no `branch` field). -/
def entryOfBlock (block : List String) : Option WtEntry :=
  let path := block.findSome? fun l => if pyStartsWith l "worktree " then some (pyDropChars l 9) else none
  let head := block.findSome? fun l => if pyStartsWith l "HEAD " then some (pyDropChars l 5) else none
  let branch := block.findSome? fun l =>
    if pyStartsWith l "branch " then some (stripRefsHeads (pyDropChars l 7)) else none
  match path with
  | some p => some ⟨p, head, branch⟩
  | none => none

/-- Modelled from the spec: §4.3 — parse the machine-readable block
format of `git worktree list --porcelain`. -/
def parseWorktreePorcelain (out : String) : List WtEntry :=
  (splitBlocksAux (pySplitOnChar '\n' out) []).filterMap entryOfBlock

/-- An entry belongs to a klondike session exactly when it has a
`branch` field whose value matches the `klondike/...` convention. -/
def isKlondikeEntry (e : WtEntry) : Bool :=
  match e.branch with
  | some b => pyStartsWith b "klondike/"
  | none => false

/-- Modelled from the spec: §4.3 `WorktreeRegistry.list` — parse the
porcelain output and keep only the entries whose branch matches the
`klondike/...` naming convention, skipping detached-HEAD worktrees. -/
def worktreeRegistryList (out : String) : List WtEntry :=
  (parseWorktreePorcelain out).filter isKlondikeEntry

/-- Git-visible state of one session, as consulted by the cleanup
safety checks of §4.6: whether the worktree directory and the branch
exist, whether `git status --porcelain` in the worktree reports
changes, and the commits reported by `git log <parent>..<branch>`. -/
structure SessionGitState where
  worktreeExists : Bool
  branchExists : Bool
  hasUncommittedChanges : Bool
  unmergedCommits : List String
deriving Repr, DecidableEq

/-- The payload of an `UnsafeCleanupError`: which safety condition
triggered the refusal. -/
structure UnsafeCleanupInfo where
  uncommitted : Bool
  unmerged : Bool
deriving Repr, DecidableEq

/-- Modelled from the spec: §4.6 `CleanupManager.remove` — check the
worktree for uncommitted changes and the branch for commits not merged
into the recorded parent; if either check finds unmerged work and
`force` is false, fail with `UnsafeCleanupError` naming the triggering
condition and perform no destructive action; otherwise remove the
worktree and delete the branch.  The returned state is the state after
the call. -/
def cleanupRemove (st : SessionGitState) (force : Bool) :
    Except UnsafeCleanupInfo Unit × SessionGitState :=
  let uncommitted := st.hasUncommittedChanges
  let unmerged := !st.unmergedCommits.isEmpty
  if (uncommitted || unmerged) && !force then
    (.error ⟨uncommitted, unmerged⟩, st)
  else
    (.ok (), { st with worktreeExists := false, branchExists := false })

/-- The result record of §4.5 `ApplyEngine.apply`. -/
structure ApplyResult where
  merged : Bool
  conflict_files : List String
deriving Repr, DecidableEq

/-- State of the main repository as seen by `ApplyEngine.apply`. -/
structure MainRepoState where
  hasUncommittedChanges : Bool
  mergeInProgress : Bool
deriving Repr, DecidableEq

/-- Outcome of the attempted `git merge --no-ff <branch>`. -/
inductive MergeOutcome where
  | clean
  | conflict (files : List String)
deriving Repr, DecidableEq

/-- Errors of §4.5: the main repository is dirty, or the recorded
parent branch is unknown (apply refuses to guess). -/
inductive ApplyError where
  | dirtyMainRepo
  | unknownParentBranch
deriving Repr, DecidableEq

/-- Modelled from the spec: §4.5 `ApplyEngine.apply` — refuse when the
parent branch is unknown or the main repository has uncommitted
changes; merge the session branch; on success return `merged = true`;
on conflict abort the merge (`git merge --abort`), so the conflicted
intermediate state is restored to a clean one, and return
`merged = false` with the conflicting files. -/
def applyEngineApply (st : MainRepoState) (parent : Option String) (o : MergeOutcome) :
    Except ApplyError (ApplyResult × MainRepoState) :=
  match parent with
  | none => .error .unknownParentBranch
  | some _ =>
    if st.hasUncommittedChanges then .error .dirtyMainRepo
    else
      match o with
      | .clean => .ok (⟨true, []⟩, st)
      | .conflict files =>
        let conflicted := { st with mergeInProgress := true }
        let aborted := { conflicted with mergeInProgress := false }
        .ok (⟨false, files⟩, aborted)

/-- Session-related state observed after a blocking launch returns:
whether the worktree directory and branch still exist and whether the
session's changes were applied to the parent branch. -/
structure SessionEndState where
  worktreeExists : Bool
  branchExists : Bool
  applied : Bool
deriving Repr, DecidableEq

/-- Modelled from the spec: §4.4 steps 6–7 and the failure semantics of
`SessionLauncher.create` — the apply and cleanup finalizers run only on
a successful (exit code 0) agent exit; on a non-zero exit the worktree
is left in place regardless of `cleanup_after`. -/
def launcherFinalize (cleanup_after apply_changes : Bool) (agentExitCode : Int)
    (st : SessionEndState) : SessionEndState :=
  if agentExitCode = 0 then
    let st1 := if apply_changes then { st with applied := true } else st
    if cleanup_after then { st1 with worktreeExists := false, branchExists := false } else st1
  else st

/-- The spawn of the agent process: the command invocation, the
working directory it runs in, and whether the launcher blocks on it. -/
structure AgentLaunch where
  call : Call
  cwd : String
  blocking : Bool
deriving Repr, DecidableEq

/-- Modelled from the spec: §4.4 step 5 and §5 — `commands/copilot_cmd.py`
is not under `src/`; the launcher spawns the agent process inside the
worktree with no timeout (timeouts apply only to the individual git
subprocess calls), so the agent may run indefinitely when blocking. -/
def launchAgent (argv : List String) (worktreePath : String) (blocking : Bool) : AgentLaunch :=
  { call := ⟨argv, none⟩, cwd := worktreePath, blocking := blocking }

/-- C1: for every session whose worktree has uncommitted changes or
whose branch has commits not merged into the recorded parent branch,
`CleanupManager.remove` with `force = false` fails with
`UnsafeCleanupError` naming the triggering condition and performs no
destructive action: the worktree directory and the session's branch
both still exist after the call. -/
theorem cleanup_remove_refuses_unsafe (st : SessionGitState)
    (h : st.hasUncommittedChanges = true ∨ st.unmergedCommits ≠ [])
    (hw : st.worktreeExists = true) (hb : st.branchExists = true) :
    (cleanupRemove st false).1 =
      .error ⟨st.hasUncommittedChanges, !st.unmergedCommits.isEmpty⟩
    ∧ (cleanupRemove st false).2 = st
    ∧ (cleanupRemove st false).2.worktreeExists = true
    ∧ (cleanupRemove st false).2.branchExists = true := by
  have hcond : (st.hasUncommittedChanges || !st.unmergedCommits.isEmpty) = true := by
    rcases h with h | h
    · simp [h]
    · simp [h]
  refine ⟨?_, ?_, ?_, ?_⟩ <;> simp [cleanupRemove, hcond, hw, hb]

/-- Witness for C1: a session with one uncommitted change is refused,
and both the worktree and the branch survive the call. -/
theorem cleanup_remove_refuses_unsafe_witness :
    (cleanupRemove ⟨true, true, true, []⟩ false).1 = .error ⟨true, false⟩
    ∧ (cleanupRemove ⟨true, true, true, []⟩ false).2 = ⟨true, true, true, []⟩
    ∧ (cleanupRemove ⟨true, true, true, []⟩ false).2.worktreeExists = true
    ∧ (cleanupRemove ⟨true, true, true, []⟩ false).2.branchExists = true :=
  cleanup_remove_refuses_unsafe ⟨true, true, true, []⟩ (Or.inl rfl) rfl rfl

/-- C2: for every apply of a session branch whose merge into the parent
branch conflicts, `ApplyEngine.apply` aborts the merge, returns
`merged = false` with `conflict_files` naming the conflicting files,
and leaves the main repository clean (no merge in progress, no
uncommitted changes) after the call returns. -/
theorem apply_conflict_aborts_and_reports (st : MainRepoState) (p : String)
    (files : List String) (hclean : st.hasUncommittedChanges = false) :
    applyEngineApply st (some p) (.conflict files) =
      .ok (⟨false, files⟩, ⟨false, false⟩) := by
  cases st
  simp_all [applyEngineApply]

/-- Witness for C2: a conflicting merge of one file reports it and
leaves the main repository clean. -/
theorem apply_conflict_aborts_and_reports_witness :
    applyEngineApply ⟨false, false⟩ (some "main") (.conflict ["src/app.py"]) =
      .ok (⟨false, ["src/app.py"]⟩, ⟨false, false⟩) :=
  apply_conflict_aborts_and_reports ⟨false, false⟩ "main" ["src/app.py"] rfl

/-- C3: for every launched session whose agent process exits with a
non-zero exit code, the worktree is never removed automatically even
when `cleanup_after` was requested; automatic cleanup and apply run
only after a successful (exit code 0) agent exit. -/
theorem launcher_finalize_only_on_success (ca ac : Bool) (code : Int)
    (st : SessionEndState) (hw : st.worktreeExists = true) :
    (code ≠ 0 → launcherFinalize ca ac code st = st)
    ∧ ((launcherFinalize ca ac code st).worktreeExists = false → code = 0)
    ∧ ((launcherFinalize ca ac code st).applied = true → st.applied = true ∨ code = 0)
    ∧ (code = 0 → ca = true →
        (launcherFinalize ca ac code st).worktreeExists = false ∧
        (launcherFinalize ca ac code st).branchExists = false) := by
  by_cases hc : code = 0
  · subst hc
    cases hca : ca <;> cases hac : ac <;>
      simp [launcherFinalize]
  · refine ⟨fun _ => ?_, ?_, ?_, fun h0 => absurd h0 hc⟩ <;>
      simp [launcherFinalize, hc, hw]

/-- Witness for C3: an agent exit with code 1 and `cleanup_after`
requested leaves the state untouched; an exit with code 0 and
`cleanup_after` removes worktree and branch. -/
theorem launcher_finalize_only_on_success_witness :
    ((1 : Int) ≠ 0 → launcherFinalize true true 1 ⟨true, true, false⟩ = ⟨true, true, false⟩)
    ∧ ((launcherFinalize true true 1 ⟨true, true, false⟩).worktreeExists = false → (1 : Int) = 0)
    ∧ ((launcherFinalize true true 1 ⟨true, true, false⟩).applied = true →
        (⟨true, true, false⟩ : SessionEndState).applied = true ∨ (1 : Int) = 0)
    ∧ ((1 : Int) = 0 → true = true →
        (launcherFinalize true true 1 ⟨true, true, false⟩).worktreeExists = false ∧
        (launcherFinalize true true 1 ⟨true, true, false⟩).branchExists = false) :=
  launcher_finalize_only_on_success true true 1 ⟨true, true, false⟩ rfl

/-- Every character produced by the slug sanitisation is alphanumeric
or `-`. -/
theorem sanitize_chars (base : String) :
    ∀ ch ∈ (String.mk (base.toList.map
        (fun c => if c.toLower.isAlphanum then c.toLower else '-'))).toList,
      ch.isAlphanum = true ∨ ch = '-' := by
  intro ch hch
  have : ch ∈ base.toList.map
      (fun c => if c.toLower.isAlphanum then c.toLower else '-') := hch
  obtain ⟨c, _, hc⟩ := List.mem_map.mp this
  by_cases h : c.toLower.isAlphanum
  · left
    rw [← hc]
    simp [h]
  · right
    rw [← hc]
    simp [h]

/-- C5: the generated session branch name equals
`"klondike/" + slug + "-" + <eight hex characters>`: the slug is the
feature id if non-empty, else the session name if non-empty, else the
literal `"session"`, lower-cased with every non-alphanumeric character
replaced by `-`. -/
theorem session_branch_name_spec (fid name hex : String) (hhex : hex.length = 8) :
    branchNameOf (slug fid name) hex = "klondike/" ++ slug fid name ++ "-" ++ hex
    ∧ (branchNameOf (slug fid name) hex).length = (slug fid name).length + 18
    ∧ (fid ≠ "" → slug fid name = String.mk (fid.toList.map
        (fun ch => if ch.toLower.isAlphanum then ch.toLower else '-')))
    ∧ (fid = "" → name ≠ "" → slug fid name = String.mk (name.toList.map
        (fun ch => if ch.toLower.isAlphanum then ch.toLower else '-')))
    ∧ (fid = "" → name = "" → slug fid name = "session")
    ∧ (∀ ch ∈ (slug fid name).toList, ch.isAlphanum = true ∨ ch = '-') := by
  refine ⟨rfl, ?_, ?_, ?_, ?_, ?_⟩
  · simp only [branchNameOf, String.length_append, hhex,
      show ("klondike/" : String).length = 9 from rfl,
      show ("-" : String).length = 1 from rfl]
    omega
  · intro hf
    simp [slug, hf]
  · intro hf hn
    simp [slug, hf, hn]
  · intro hf hn
    simp [slug, hf, hn]
  · have : slug fid name = String.mk
        ((if fid ≠ "" then fid else if name ≠ "" then name else "session").toList.map
          (fun ch => if ch.toLower.isAlphanum then ch.toLower else '-')) := rfl
    rw [this]
    exact sanitize_chars _

/-- Witness for C5: the branch name for feature `F010` with suffix
`ab12cd34` has the specified shape. -/
theorem session_branch_name_spec_witness :
    (branchNameOf (slug "F010" "") "ab12cd34" =
        "klondike/" ++ slug "F010" "" ++ "-" ++ "ab12cd34"
      ∧ (branchNameOf (slug "F010" "") "ab12cd34").length = (slug "F010" "").length + 18
      ∧ ("F010" ≠ "" → slug "F010" "" = String.mk ("F010".toList.map
          (fun ch => if ch.toLower.isAlphanum then ch.toLower else '-')))
      ∧ ("F010" = "" → "" ≠ "" → slug "F010" "" = String.mk ("".toList.map
          (fun ch => if ch.toLower.isAlphanum then ch.toLower else '-')))
      ∧ ("F010" = "" → "" = "" → slug "F010" "" = "session")
      ∧ (∀ ch ∈ (slug "F010" "").toList, ch.isAlphanum = true ∨ ch = '-'))
    ∧ slug "F010" "" = "f010" :=
  ⟨session_branch_name_spec "F010" "" "ab12cd34" (by decide), by decide⟩

/-- C4: the worktree registry keeps exactly the parsed entries whose
branch matches the `klondike/...` convention; the main worktree,
worktrees on other branches, and detached-HEAD worktrees (no `branch`
field) are excluded rather than causing a parse failure. -/
theorem worktree_registry_list_spec (out : String) :
    (∀ e ∈ worktreeRegistryList out, e ∈ parseWorktreePorcelain out ∧
        ∃ b, e.branch = some b ∧ pyStartsWith b "klondike/" = true)
    ∧ (∀ e ∈ parseWorktreePorcelain out,
        isKlondikeEntry e = true → e ∈ worktreeRegistryList out)
    ∧ (∀ e ∈ parseWorktreePorcelain out,
        e.branch = none → e ∉ worktreeRegistryList out) := by
  refine ⟨?_, ?_, ?_⟩
  · intro e he
    have h := List.mem_filter.mp he
    refine ⟨h.1, ?_⟩
    rcases hb : e.branch with _ | b
    · rw [isKlondikeEntry, hb] at h
      exact absurd h.2 (by simp)
    · refine ⟨b, rfl, ?_⟩
      have := h.2
      rwa [isKlondikeEntry, hb] at this
  · intro e he hk
    exact List.mem_filter.mpr ⟨he, hk⟩
  · intro e he hb hmem
    have h := List.mem_filter.mp hmem
    rw [isKlondikeEntry, hb] at h
    exact absurd h.2 (by simp)

/-- A `git worktree list --porcelain` output mixing the main worktree,
a klondike session, a detached-HEAD worktree and a non-klondike
branch. -/
def porcelainSample : String :=
  "worktree /home/u/proj\nHEAD aaaa\nbranch refs/heads/main\n\n" ++
  "worktree /home/u/wt1\nHEAD bbbb\nbranch refs/heads/klondike/f001-ab12cd34\n\n" ++
  "worktree /home/u/other\nHEAD cccc\ndetached\n\n" ++
  "worktree /home/u/featx\nHEAD dddd\nbranch refs/heads/feature/x\n"

/-- Witness for C4: on the seeded mix, the klondike entry is kept, the
detached-HEAD entry is skipped, and the registry holds exactly the
klondike entry. -/
theorem worktree_registry_list_spec_witness :
    (⟨"/home/u/wt1", some "bbbb", some "klondike/f001-ab12cd34"⟩ : WtEntry) ∈
        worktreeRegistryList porcelainSample
    ∧ (⟨"/home/u/other", some "cccc", none⟩ : WtEntry) ∉
        worktreeRegistryList porcelainSample
    ∧ worktreeRegistryList porcelainSample =
        [⟨"/home/u/wt1", some "bbbb", some "klondike/f001-ab12cd34"⟩] := by
  have hp : parseWorktreePorcelain porcelainSample =
      [⟨"/home/u/proj", some "aaaa", some "main"⟩,
       ⟨"/home/u/wt1", some "bbbb", some "klondike/f001-ab12cd34"⟩,
       ⟨"/home/u/other", some "cccc", none⟩,
       ⟨"/home/u/featx", some "dddd", some "feature/x"⟩] := rfl
  refine ⟨?_, ?_, rfl⟩
  · exact (worktree_registry_list_spec porcelainSample).2.1
      ⟨"/home/u/wt1", some "bbbb", some "klondike/f001-ab12cd34"⟩
      (by rw [hp]; simp) rfl
  · exact (worktree_registry_list_spec porcelainSample).2.2
      ⟨"/home/u/other", some "cccc", none⟩
      (by rw [hp]; simp) rfl

/-- A successful `nextIdFrom` returns the first candidate in the tried
range that is not among the existing ids. -/
theorem nextIdFrom_ok_char (existing : List String) :
    ∀ fuel i s, nextIdFrom existing i fuel = .ok s →
      ∃ k, k < fuel ∧ s = candidateId (i + k) ∧
        existing.contains (candidateId (i + k)) = false ∧
        ∀ m, m < k → existing.contains (candidateId (i + m)) = true := by
  intro fuel
  induction fuel with
  | zero =>
    intro i s h
    simp [nextIdFrom] at h
  | succ n ih =>
    intro i s h
    rw [nextIdFrom] at h
    by_cases hc : existing.contains (candidateId i) = true
    · rw [if_pos hc] at h
      obtain ⟨k, hk, hs, hnc, hall⟩ := ih (i + 1) s h
      refine ⟨k + 1, by omega, ?_, ?_, ?_⟩
      · rw [hs]
        congr 1
        omega
      · have : i + 1 + k = i + (k + 1) := by omega
        rwa [this] at hnc
      · intro m hm
        match m, hm with
        | 0, _ => simpa using hc
        | m' + 1, hm' =>
          have : i + (m' + 1) = i + 1 + m' := by omega
          rw [this]
          exact hall m' (by omega)
    · rw [if_neg hc] at h
      refine ⟨0, by omega, ?_, ?_, by omega⟩
      · cases h
        simp
      · simpa using hc

/-- `nextIdFrom` raises `ValueError` exactly when every candidate in
the tried range is taken. -/
theorem nextIdFrom_error_char (existing : List String) :
    ∀ fuel i, nextIdFrom existing i fuel = .error (.valueError "No available feature IDs") ↔
      ∀ k, k < fuel → existing.contains (candidateId (i + k)) = true := by
  intro fuel
  induction fuel with
  | zero =>
    intro i
    simp [nextIdFrom]
  | succ n ih =>
    intro i
    rw [nextIdFrom]
    by_cases hc : existing.contains (candidateId i) = true
    · rw [if_pos hc, ih (i + 1)]
      constructor
      · intro hall k hk
        match k, hk with
        | 0, _ => simpa using hc
        | k' + 1, hk' =>
          have : i + (k' + 1) = i + 1 + k' := by omega
          rw [this]
          exact hall k' (by omega)
      · intro hall k hk
        have : i + 1 + k = i + (k + 1) := by omega
        rw [this]
        exact hall (k + 1) (by omega)
    · rw [if_neg hc]
      constructor
      · intro h
        cases h
      · intro hall
        exact absurd (by simpa using hall 0 (by omega)) hc

/-- C9: `next_feature_id` returns the id `F<i>` (zero-padded to three
digits) with the smallest index in 1..999 not occurring among the
existing feature ids — never an id already in the registry — and it
raises `ValueError` exactly when all 999 candidates are taken. -/
theorem next_feature_id_spec (reg : FeatureRegistry) :
    (∀ s, reg.next_feature_id = .ok s →
      ∃ i, 1 ≤ i ∧ i ≤ 999 ∧ s = candidateId i ∧
        (reg.features.map (fun f => f.id)).contains s = false ∧
        ∀ j, 1 ≤ j → j < i →
          (reg.features.map (fun f => f.id)).contains (candidateId j) = true)
    ∧ (reg.next_feature_id = .error (.valueError "No available feature IDs") ↔
        ∀ i, 1 ≤ i → i ≤ 999 →
          (reg.features.map (fun f => f.id)).contains (candidateId i) = true) := by
  constructor
  · intro s h
    rw [FeatureRegistry.next_feature_id] at h
    obtain ⟨k, hk, hs, hnc, hall⟩ :=
      nextIdFrom_ok_char (reg.features.map (fun f => f.id)) 999 1 s h
    refine ⟨1 + k, by omega, by omega, hs, by rw [hs]; exact hnc, ?_⟩
    intro j h1 hj
    have : j = 1 + (j - 1) := by omega
    rw [this]
    exact hall (j - 1) (by omega)
  · rw [FeatureRegistry.next_feature_id,
      nextIdFrom_error_char (reg.features.map (fun f => f.id)) 999 1]
    constructor
    · intro hall i h1 h999
      have : i = 1 + (i - 1) := by omega
      rw [this]
      exact hall (i - 1) (by omega)
    · intro hall k hk
      exact hall (1 + k) (by omega) (by omega)

/-- A concrete feature record used by the witnesses. -/
def featSample : Feature :=
  { id := "F001", description := "first feature", category := Sum.inl .core,
    priority := 1, acceptance_criteria := ["works"] }

/-- A concrete registry used by the witnesses. -/
def regSample : FeatureRegistry :=
  { project_name := "proj", version := "0.1.0", features := [featSample],
    metadata := { created_at := "2025-01-01", last_updated := "2025-01-02",
                  total_features := 1, passing_features := 0 } }

/-- Witness for C9: with only `F001` taken, the next id is `F002`, it
is `candidateId 2`, and it is not yet in the registry. -/
theorem next_feature_id_spec_witness :
    ∃ i, 1 ≤ i ∧ i ≤ 999 ∧ "F002" = candidateId i ∧
      (regSample.features.map (fun f => f.id)).contains "F002" = false ∧
      ∀ j, 1 ≤ j → j < i →
        (regSample.features.map (fun f => f.id)).contains (candidateId j) = true :=
  (next_feature_id_spec regSample).1 "F002" rfl

/-- The porcelain output at a working directory is well formed: every
line `git status --porcelain` prints is empty or at least two
characters long (the real format is `XY <path>`). -/
def porcelainWellFormed (w : GitWorld) (cwd : String) : Prop :=
  ∀ r, w.statusPorcelain cwd = .completed r → r.returncode = 0 →
    ∀ line ∈ pySplitOnChar '\n' (pyStrip r.stdout), line = "" ∨ 2 ≤ line.toList.length

/-- Whether a subprocess outcome is one the `except` clauses of
`git.py` handle (the process started, was missing, or timed out), as
opposed to the uncaught `PermissionError`/`NotADirectoryError`. -/
def startableB (o : ProcOutcome) : Bool :=
  match o with
  | .permissionDenied _ => false
  | .notADirectory _ => false
  | _ => true

/-- The git invocations `get_git_status` makes at a working directory
can all start: `cwd` is a directory and the executable, when present,
is startable.  This is what "for every input path" can mean for the
program without it raising. -/
def gitWorldStartable (w : GitWorld) (cwd : String) : Prop :=
  startableB w.version = true ∧ startableB (w.revParseGitDir cwd) = true ∧
  startableB (w.revParseHead cwd) = true ∧ startableB (w.statusPorcelain cwd) = true

/-- On a startable `git --version` outcome, `is_git_installed` returns
a value. -/
theorem is_git_installed_ok_of_startable (w : GitWorld)
    (h : startableB w.version = true) : ∃ b, (is_git_installed w).1 = .ok b := by
  rcases hv : w.version with r | m | m | m | m
  · exact ⟨r.returncode == 0, by simp [is_git_installed, hv]⟩
  · exact ⟨false, by simp [is_git_installed, hv]⟩
  · exact ⟨false, by simp [is_git_installed, hv]⟩
  · rw [hv] at h
    simp [startableB] at h
  · rw [hv] at h
    simp [startableB] at h

/-- On a startable `git rev-parse --git-dir` outcome, `is_git_repo`
returns a value. -/
theorem is_git_repo_ok_of_startable (w : GitWorld) (p : Option String)
    (h : startableB (w.revParseGitDir (p.getD w.cwd)) = true) :
    ∃ b, (is_git_repo w p).1 = .ok b := by
  rcases hv : w.revParseGitDir (p.getD w.cwd) with r | m | m | m | m
  · exact ⟨r.returncode == 0, by simp [is_git_repo, hv]⟩
  · exact ⟨false, by simp [is_git_repo, hv]⟩
  · exact ⟨false, by simp [is_git_repo, hv]⟩
  · rw [hv] at h
    simp [startableB] at h
  · rw [hv] at h
    simp [startableB] at h

/-- On a startable `git rev-parse --abbrev-ref HEAD` outcome, the
branch block returns a status. -/
theorem branchStatus_ok_of_startable (o : ProcOutcome)
    (h : startableB o = true) : ∃ st, branchStatus o = .ok st := by
  rcases o with r | m | m | m | m
  · by_cases hrc : (r.returncode == 0) = true
    · exact ⟨{ is_git_repo := true, current_branch := some (pyStrip r.stdout) },
        by simp [branchStatus, hrc]⟩
    · exact ⟨{ is_git_repo := true }, by simp [branchStatus, hrc]⟩
  · exact ⟨{ is_git_repo := true }, rfl⟩
  · exact ⟨{ is_git_repo := true }, rfl⟩
  · simp [startableB] at h
  · simp [startableB] at h

/-- On well-formed lines the porcelain parse never raises. -/
theorem parseStatusLines_total (lines : List String) :
    ∀ s : GitStatus, (∀ line ∈ lines, line = "" ∨ 2 ≤ line.toList.length) →
      ∃ s2, parseStatusLines s lines = .ok s2 := by
  induction lines with
  | nil =>
    intro s _
    exact ⟨s, rfl⟩
  | cons line rest ih =>
    intro s h
    rw [parseStatusLines]
    by_cases he : line = ""
    · rw [if_pos he]
      exact ih s (fun l hl => h l (by simp [hl]))
    · rw [if_neg he]
      rcases h line (by simp) with h0 | h2
      · exact absurd h0 he
      · rcases hl : line.toList with _ | ⟨c0, tail0⟩
        · rw [hl] at h2
          simp at h2
        · rcases ht : tail0 with _ | ⟨c1, tail1⟩
          · rw [hl, ht] at h2
            simp at h2
          · rw [ht] at hl
            simp only [hl]
            exact ih _ (fun l hml => h l (by simp [hml]))

/-- Every error the porcelain parse can raise is `IndexError`. -/
theorem parseStatusLines_error (lines : List String) :
    ∀ s e, parseStatusLines s lines = .error e → e = .indexError := by
  induction lines with
  | nil =>
    intro s e h
    simp [parseStatusLines] at h
  | cons line rest ih =>
    intro s e h
    rw [parseStatusLines] at h
    by_cases he : line = ""
    · rw [if_pos he] at h
      exact ih s e h
    · rw [if_neg he] at h
      rcases hl : line.toList with _ | ⟨c0, _ | ⟨c1, tail1⟩⟩ <;> rw [hl] at h
      · cases h
        rfl
      · cases h
        rfl
      · exact ih _ e h

/-- C10 (amended): on every input path at which the git subprocess
invocations can start (in particular the path is a directory),
`get_git_status` is total and never raises: when git is not installed
it returns `error = "Git is not installed"`, when the directory is not
a repository it returns `error = "Not a git repository"` (all other
fields at their defaults), and on well-formed porcelain output it
returns a `GitStatus` rather than raising.  (A regular-file path makes
the subprocess calls raise `NotADirectoryError`, which `git.py` does
not catch — see the counterexample.) -/
theorem get_git_status_spec (w : GitWorld) (path : Option String)
    (hst : gitWorldStartable w (path.getD w.cwd)) :
    ((is_git_installed w).1 = .ok false →
      (get_git_status w path).1 = .ok { error := some "Git is not installed" })
    ∧ ((is_git_installed w).1 = .ok true →
        (is_git_repo w (some (path.getD w.cwd))).1 = .ok false →
      (get_git_status w path).1 = .ok { error := some "Not a git repository" })
    ∧ (porcelainWellFormed w (path.getD w.cwd) →
        ∃ s, (get_git_status w path).1 = .ok s) := by
  obtain ⟨hv, hgd, hrh, hsp⟩ := hst
  refine ⟨?_, ?_, ?_⟩
  · intro h
    simp [get_git_status, h]
  · intro h1 h2
    simp [get_git_status, h1, h2]
  · intro hwf
    obtain ⟨ib, hib⟩ := is_git_installed_ok_of_startable w hv
    by_cases hibf : ib = false
    · subst hibf
      exact ⟨{ error := some "Git is not installed" }, by simp [get_git_status, hib]⟩
    · rw [Bool.not_eq_false] at hibf
      subst hibf
      obtain ⟨rb, hrb⟩ := is_git_repo_ok_of_startable w (some (path.getD w.cwd))
        (by simpa using hgd)
      by_cases hrbf : rb = false
      · subst hrbf
        exact ⟨{ error := some "Not a git repository" }, by simp [get_git_status, hib, hrb]⟩
      · rw [Bool.not_eq_false] at hrbf
        subst hrbf
        obtain ⟨st1, hst1⟩ := branchStatus_ok_of_startable (w.revParseHead (path.getD w.cwd)) hrh
        rcases hs : w.statusPorcelain (path.getD w.cwd) with r | m | m | m | m
        · by_cases hrc : r.returncode = 0
          · obtain ⟨s2, hs2⟩ := parseStatusLines_total
              (pySplitOnChar '\n' (pyStrip r.stdout)) st1 (hwf r hs hrc)
            exact ⟨s2, by simp [get_git_status, hib, hrb, hst1, hs, hrc, hs2]⟩
          · have hrc2 : (r.returncode == 0) = false := by
              simpa using hrc
            exact ⟨st1, by simp [get_git_status, hib, hrb, hst1, hs, hrc2]⟩
        · exact ⟨st1, by simp [get_git_status, hib, hrb, hst1, hs]⟩
        · exact ⟨st1, by simp [get_git_status, hib, hrb, hst1, hs]⟩
        · rw [hs] at hsp
          simp [startableB] at hsp
        · rw [hs] at hsp
          simp [startableB] at hsp

/-- A world in which git is not installed. -/
def wNoGit : GitWorld :=
  { cwd := "/home/u/proj",
    version := .fileNotFound "[Errno 2] No such file or directory: 'git'",
    revParseGitDir := fun _ => .fileNotFound "[Errno 2] No such file or directory: 'git'",
    revParseHead := fun _ => .fileNotFound "[Errno 2] No such file or directory: 'git'",
    statusPorcelain := fun _ => .fileNotFound "[Errno 2] No such file or directory: 'git'",
    logCmd := fun _ => .fileNotFound "[Errno 2] No such file or directory: 'git'",
    addAllCmd := fun _ => .fileNotFound "[Errno 2] No such file or directory: 'git'",
    commitCmd := fun _ _ => .fileNotFound "[Errno 2] No such file or directory: 'git'" }

/-- A world in which git works but no directory is a repository. -/
def wNotRepo : GitWorld :=
  { cwd := "/home/u/scratch",
    version := .completed ⟨0, "git version 2.43.0", ""⟩,
    revParseGitDir := fun _ => .completed ⟨128, "", "fatal: not a git repository"⟩,
    revParseHead := fun _ => .completed ⟨128, "", "fatal: not a git repository"⟩,
    statusPorcelain := fun _ => .completed ⟨128, "", "fatal: not a git repository"⟩,
    logCmd := fun _ => .completed ⟨128, "", "fatal: not a git repository"⟩,
    addAllCmd := fun _ => .completed ⟨128, "", "fatal: not a git repository"⟩,
    commitCmd := fun _ _ => .completed ⟨128, "", "fatal: not a git repository"⟩ }

/-- A healthy repository world with two changed files. -/
def wHealthy : GitWorld :=
  { cwd := "/home/u/proj",
    version := .completed ⟨0, "git version 2.43.0", ""⟩,
    revParseGitDir := fun _ => .completed ⟨0, ".git", ""⟩,
    revParseHead := fun _ => .completed ⟨0, "main\n", ""⟩,
    statusPorcelain := fun _ => .completed ⟨0, " M a.py\n?? b.py\n", ""⟩,
    logCmd := fun _ => .completed ⟨0, "", ""⟩,
    addAllCmd := fun _ => .completed ⟨0, "", ""⟩,
    commitCmd := fun _ _ => .completed ⟨0, "ok", ""⟩ }

/-- A world whose repository lives at `/repo` while `/repo/README.md`
is a regular file: `subprocess.run` with `cwd=/repo/README.md` raises
`NotADirectoryError`. -/
def wFileCwd : GitWorld :=
  { cwd := "/repo",
    version := .completed ⟨0, "git version 2.43.0", ""⟩,
    revParseGitDir := fun p =>
      if p = "/repo/README.md" then
        .notADirectory "[Errno 20] Not a directory: '/repo/README.md'"
      else .completed ⟨0, ".git", ""⟩,
    revParseHead := fun p =>
      if p = "/repo/README.md" then
        .notADirectory "[Errno 20] Not a directory: '/repo/README.md'"
      else .completed ⟨0, "main\n", ""⟩,
    statusPorcelain := fun p =>
      if p = "/repo/README.md" then
        .notADirectory "[Errno 20] Not a directory: '/repo/README.md'"
      else .completed ⟨0, "", ""⟩,
    logCmd := fun _ => .completed ⟨0, "", ""⟩,
    addAllCmd := fun _ => .completed ⟨0, "", ""⟩,
    commitCmd := fun _ _ => .completed ⟨0, "ok", ""⟩ }

/-- Counterexample to C10 as stated: `get_git_status` is not total on
every input path — with the regular file `/repo/README.md` as the path
the uncaught `NotADirectoryError` from `is_git_repo`'s subprocess call
propagates out instead of any `GitStatus` being returned, while the
same world handles the directory path `/repo` fine. -/
theorem get_git_status_file_path_counterexample :
    (get_git_status wFileCwd (some "/repo/README.md")).1 =
      .error (.notADirectoryError "[Errno 20] Not a directory: '/repo/README.md'")
    ∧ (get_git_status wFileCwd (some "/repo")).1 =
        .ok { is_git_repo := true, current_branch := some "main" } :=
  ⟨rfl, rfl⟩

/-- Witness for C10 (amended): the two error cases produce exactly the
specified records, and a healthy world produces a status without
raising. -/
theorem get_git_status_spec_witness :
    (get_git_status wNoGit none).1 = .ok { error := some "Git is not installed" }
    ∧ (get_git_status wNotRepo none).1 = .ok { error := some "Not a git repository" }
    ∧ ∃ s, (get_git_status wHealthy none).1 = .ok s :=
  ⟨(get_git_status_spec wNoGit none ⟨rfl, rfl, rfl, rfl⟩).1 rfl,
   (get_git_status_spec wNotRepo none ⟨rfl, rfl, rfl, rfl⟩).2.1 rfl rfl,
   (get_git_status_spec wHealthy none ⟨rfl, rfl, rfl, rfl⟩).2.2 (by
      intro r hr hrc
      injection hr with h
      subst h
      decide)⟩

/-- A well-behaved git subprocess invocation: it invokes `git` and
passes a finite timeout of at most 30 seconds. -/
def gitCallOK (c : Call) : Prop :=
  c.argv.head? = some "git" ∧ ∃ t, c.timeoutSecs = some t ∧ t ≤ 30

/-- The trace of `is_git_installed` is always the single
`git --version` call with `timeout=5`. -/
theorem is_git_installed_trace (w : GitWorld) :
    (is_git_installed w).2 = [⟨["git", "--version"], some 5⟩] := by
  rcases hv : w.version with r | m | m | m | m <;> simp [is_git_installed, hv]

/-- The trace of `is_git_repo` is always the single
`git rev-parse --git-dir` call with `timeout=5`. -/
theorem is_git_repo_trace (w : GitWorld) (path : Option String) :
    (is_git_repo w path).2 = [⟨["git", "rev-parse", "--git-dir"], some 5⟩] := by
  rcases hv : w.revParseGitDir (path.getD w.cwd) with r | m | m | m | m <;>
    simp [is_git_repo, hv]

/-- The trace of `git_add_all` is always the single `git add -A` call
with `timeout=10`. -/
theorem git_add_all_trace (w : GitWorld) (path : Option String) :
    (git_add_all w path).2 = [⟨["git", "add", "-A"], some 10⟩] := by
  rcases hv : w.addAllCmd (path.getD w.cwd) with r | m | m | m | m <;>
    simp [git_add_all, hv]

/-- The trace of `git_commit` is always the single
`git commit -m <message>` call with `timeout=30`. -/
theorem git_commit_trace (w : GitWorld) (message : String) (path : Option String) :
    (git_commit w message path).2 = [⟨["git", "commit", "-m", message], some 30⟩] := by
  rcases hv : w.commitCmd (path.getD w.cwd) message with r | m | m | m | m <;>
    simp [git_commit, hv, apply_ite]

/-- Every call recorded by `is_git_installed` is a finite-timeout git
call. -/
theorem is_git_installed_calls (w : GitWorld) :
    ∀ c ∈ (is_git_installed w).2, gitCallOK c := by
  intro c hc
  rw [is_git_installed_trace] at hc
  simp at hc
  subst hc
  exact ⟨rfl, 5, rfl, by omega⟩

/-- Every call recorded by `is_git_repo` is a finite-timeout git
call. -/
theorem is_git_repo_calls (w : GitWorld) (path : Option String) :
    ∀ c ∈ (is_git_repo w path).2, gitCallOK c := by
  intro c hc
  rw [is_git_repo_trace] at hc
  simp at hc
  subst hc
  exact ⟨rfl, 5, rfl, by omega⟩

/-- Every call recorded by `get_git_status` is a finite-timeout git
call. -/
theorem get_git_status_calls (w : GitWorld) (path : Option String) :
    ∀ c ∈ (get_git_status w path).2, gitCallOK c := by
  intro c hc
  rcases hi : (is_git_installed w).1 with e | ib
  · simp [get_git_status, hi, is_git_installed_trace] at hc
    subst hc
    exact ⟨rfl, 5, rfl, by omega⟩
  · by_cases hib : ib = false
    · simp [get_git_status, hi, hib, is_git_installed_trace] at hc
      subst hc
      exact ⟨rfl, 5, rfl, by omega⟩
    · rw [Bool.not_eq_false] at hib
      subst hib
      rcases hr : (is_git_repo w (some (path.getD w.cwd))).1 with e | rb
      · simp [get_git_status, hi, hr, is_git_installed_trace, is_git_repo_trace] at hc
        rcases hc with hc | hc <;> subst hc
        · exact ⟨rfl, 5, rfl, by omega⟩
        · exact ⟨rfl, 5, rfl, by omega⟩
      · by_cases hrb : rb = false
        · simp [get_git_status, hi, hr, hrb, is_git_installed_trace, is_git_repo_trace] at hc
          rcases hc with hc | hc <;> subst hc
          · exact ⟨rfl, 5, rfl, by omega⟩
          · exact ⟨rfl, 5, rfl, by omega⟩
        · rw [Bool.not_eq_false] at hrb
          subst hrb
          rcases hbs : branchStatus (w.revParseHead (path.getD w.cwd)) with e | st1
          · simp [get_git_status, hi, hr, hbs, is_git_installed_trace, is_git_repo_trace] at hc
            rcases hc with hc | hc | hc <;> subst hc
            · exact ⟨rfl, 5, rfl, by omega⟩
            · exact ⟨rfl, 5, rfl, by omega⟩
            · exact ⟨rfl, 5, rfl, by omega⟩
          · simp [get_git_status, hi, hr, hbs, is_git_installed_trace, is_git_repo_trace] at hc
            rcases hc with hc | hc | hc | hc <;> subst hc
            · exact ⟨rfl, 5, rfl, by omega⟩
            · exact ⟨rfl, 5, rfl, by omega⟩
            · exact ⟨rfl, 5, rfl, by omega⟩
            · exact ⟨rfl, 10, rfl, by omega⟩

/-- Every call recorded by `get_recent_commits` is a finite-timeout
git call. -/
theorem get_recent_commits_calls (w : GitWorld) (count : Nat) (path : Option String) :
    ∀ c ∈ (get_recent_commits w count path).2, gitCallOK c := by
  intro c hc
  rcases hr : (is_git_repo w (some (path.getD w.cwd))).1 with e | rb
  · simp [get_recent_commits, hr, is_git_repo_trace] at hc
    subst hc
    exact ⟨rfl, 5, rfl, by omega⟩
  · by_cases hrb : rb = false
    · simp [get_recent_commits, hr, hrb, is_git_repo_trace] at hc
      subst hc
      exact ⟨rfl, 5, rfl, by omega⟩
    · rw [Bool.not_eq_false] at hrb
      subst hrb
      rcases hl : w.logCmd (path.getD w.cwd) with r2 | m | m | m | m <;>
        simp [get_recent_commits, hr, hl, is_git_repo_trace] at hc <;>
        rcases hc with hc | hc <;> subst hc <;>
        first
        | exact ⟨rfl, 5, rfl, by omega⟩
        | exact ⟨rfl, 10, rfl, by omega⟩

/-- Every call recorded by `git_add_all` is a finite-timeout git
call. -/
theorem git_add_all_calls (w : GitWorld) (path : Option String) :
    ∀ c ∈ (git_add_all w path).2, gitCallOK c := by
  intro c hc
  rw [git_add_all_trace] at hc
  simp at hc
  subst hc
  exact ⟨rfl, 10, rfl, by omega⟩

/-- Every call recorded by `git_commit` is a finite-timeout git
call. -/
theorem git_commit_calls (w : GitWorld) (message : String) (path : Option String) :
    ∀ c ∈ (git_commit w message path).2, gitCallOK c := by
  intro c hc
  rw [git_commit_trace] at hc
  simp at hc
  subst hc
  exact ⟨rfl, 30, rfl, by omega⟩

/-- The only errors `is_git_installed` can propagate are the uncaught
`PermissionError` and `NotADirectoryError`. -/
theorem is_git_installed_error_shape (w : GitWorld) :
    ∀ e, (is_git_installed w).1 = .error e →
      (∃ m, e = .permissionError m) ∨ (∃ m, e = .notADirectoryError m) := by
  intro e he
  rcases hv : w.version with r | m | m | m | m <;> simp [is_git_installed, hv] at he
  · exact Or.inl ⟨m, he.symm⟩
  · exact Or.inr ⟨m, he.symm⟩

/-- The only errors `is_git_repo` can propagate are the uncaught
`PermissionError` and `NotADirectoryError`. -/
theorem is_git_repo_error_shape (w : GitWorld) (path : Option String) :
    ∀ e, (is_git_repo w path).1 = .error e →
      (∃ m, e = .permissionError m) ∨ (∃ m, e = .notADirectoryError m) := by
  intro e he
  rcases hv : w.revParseGitDir (path.getD w.cwd) with r | m | m | m | m <;>
    simp [is_git_repo, hv] at he
  · exact Or.inl ⟨m, he.symm⟩
  · exact Or.inr ⟨m, he.symm⟩

/-- The only errors the branch block can propagate are the uncaught
`PermissionError` and `NotADirectoryError`. -/
theorem branchStatus_error_shape (o : ProcOutcome) :
    ∀ e, branchStatus o = .error e →
      (∃ m, e = .permissionError m) ∨ (∃ m, e = .notADirectoryError m) := by
  intro e he
  rcases o with r | m | m | m | m
  · by_cases hrc : (r.returncode == 0) = true <;> simp [branchStatus, hrc] at he
  · simp [branchStatus] at he
  · simp [branchStatus] at he
  · simp [branchStatus] at he
    exact Or.inl ⟨m, he.symm⟩
  · simp [branchStatus] at he
    exact Or.inr ⟨m, he.symm⟩

/-- Every error `get_git_status` can propagate is the parse
`IndexError` or an uncaught `PermissionError`/`NotADirectoryError` —
never a timeout. -/
theorem get_git_status_errors (w : GitWorld) (path : Option String) :
    ∀ e, (get_git_status w path).1 = .error e →
      e = .indexError ∨ (∃ m, e = .permissionError m) ∨ (∃ m, e = .notADirectoryError m) := by
  intro e he
  rcases hi : (is_git_installed w).1 with e0 | ib
  · simp [get_git_status, hi] at he
    exact he ▸ Or.inr (is_git_installed_error_shape w e0 hi)
  · by_cases hib : ib = false
    · simp [get_git_status, hi, hib] at he
    · rw [Bool.not_eq_false] at hib
      subst hib
      rcases hr : (is_git_repo w (some (path.getD w.cwd))).1 with e1 | rb
      · simp [get_git_status, hi, hr] at he
        exact he ▸ Or.inr (is_git_repo_error_shape w (some (path.getD w.cwd)) e1 hr)
      · by_cases hrb : rb = false
        · simp [get_git_status, hi, hr, hrb] at he
        · rw [Bool.not_eq_false] at hrb
          subst hrb
          rcases hbs : branchStatus (w.revParseHead (path.getD w.cwd)) with e2 | st1
          · simp [get_git_status, hi, hr, hbs] at he
            exact he ▸ Or.inr (branchStatus_error_shape _ e2 hbs)
          · rcases hs : w.statusPorcelain (path.getD w.cwd) with r | m | m | m | m
            · by_cases hrc : (r.returncode == 0) = true
              · simp [get_git_status, hi, hr, hbs, hs, hrc] at he
                exact Or.inl (parseStatusLines_error _ _ e he)
              · simp [get_git_status, hi, hr, hbs, hs, hrc] at he
            · simp [get_git_status, hi, hr, hbs, hs] at he
            · simp [get_git_status, hi, hr, hbs, hs] at he
            · simp [get_git_status, hi, hr, hbs, hs] at he
              exact Or.inr (Or.inl ⟨m, he.symm⟩)
            · simp [get_git_status, hi, hr, hbs, hs] at he
              exact Or.inr (Or.inr ⟨m, he.symm⟩)

/-- C7 (amended): every git subprocess invocation issued by the
embedded `git.py` helpers passes a finite timeout of 5, 10 or 30
seconds (at most 30); timeout expiry is caught, not raised onward: an
error propagated by `get_git_status` is never a timeout (only the
parse `IndexError` or an uncaught spawn error), and an expired
`git commit` timeout is reported as the failure value
`(False, str(e))`; and the launched agent process itself runs with no
timeout at all. -/
theorem git_timeout_handling_spec (w : GitWorld) (path : Option String)
    (count : Nat) (message : String) :
    (∀ c ∈ (is_git_installed w).2 ++ (is_git_repo w path).2 ++ (get_git_status w path).2 ++
        (get_recent_commits w count path).2 ++ (git_add_all w path).2 ++
        (git_commit w message path).2,
      gitCallOK c)
    ∧ (∀ e m, (get_git_status w path).1 = .error e → e ≠ .timeoutExpired m)
    ∧ (∀ m, w.commitCmd (path.getD w.cwd) message = .timedOut m →
        (git_commit w message path).1 = .ok (false, m))
    ∧ (∀ argv p b, (launchAgent argv p b).call.timeoutSecs = none) := by
  refine ⟨?_, ?_, ?_, ?_⟩
  · intro c hc
    rcases List.mem_append.mp hc with h | h
    · rcases List.mem_append.mp h with h2 | h2
      · rcases List.mem_append.mp h2 with h3 | h3
        · rcases List.mem_append.mp h3 with h4 | h4
          · rcases List.mem_append.mp h4 with h5 | h5
            · exact is_git_installed_calls w c h5
            · exact is_git_repo_calls w path c h5
          · exact get_git_status_calls w path c h4
        · exact get_recent_commits_calls w count path c h3
      · exact git_add_all_calls w path c h2
    · exact git_commit_calls w message path c h
  · intro e m he
    rcases get_git_status_errors w path e he with h | ⟨m2, h⟩ | ⟨m2, h⟩ <;> subst h <;> simp
  · intro m hm
    simp [git_commit, hm]
  · intro argv p b
    rfl

/-- A world in which `git status --porcelain` and `git commit` hit
their timeouts while everything else succeeds. -/
def wTimedOut : GitWorld :=
  { cwd := "/home/u/proj",
    version := .completed ⟨0, "git version 2.43.0", ""⟩,
    revParseGitDir := fun _ => .completed ⟨0, ".git", ""⟩,
    revParseHead := fun _ => .completed ⟨0, "main\n", ""⟩,
    statusPorcelain := fun _ =>
      .timedOut "Command '['git', 'status', '--porcelain']' timed out after 10 seconds",
    logCmd := fun _ => .completed ⟨0, "", ""⟩,
    addAllCmd := fun _ => .completed ⟨0, "", ""⟩,
    commitCmd := fun _ _ =>
      .timedOut "Command '['git', 'commit', '-m', 'fix']' timed out after 30 seconds" }

/-- Counterexample to C7 as stated: when the `git status --porcelain`
timeout expires, `get_git_status` does not fail at all — no
`ProcessTimeoutError` exists in the code, the exception is caught and
passed over, and the call returns a successful `GitStatus` whose
`error` field is `None`. -/
theorem git_timeout_counterexample :
    (get_git_status wTimedOut none).1 =
      .ok { is_git_repo := true, current_branch := some "main" }
    ∧ ((get_git_status wTimedOut none).1 =
          .ok { is_git_repo := true, current_branch := some "main" } →
        ({ is_git_repo := true, current_branch := some "main" } : GitStatus).error = none) :=
  ⟨rfl, fun _ => rfl⟩

/-- Witness for C7 (amended): the porcelain call carries `timeout=10`,
an expired `git commit` timeout is returned as a failure value, and a
concrete agent launch carries no timeout. -/
theorem git_timeout_handling_spec_witness :
    gitCallOK ⟨["git", "status", "--porcelain"], some 10⟩
    ∧ (git_commit wTimedOut "fix" none).1 =
        .ok (false, "Command '['git', 'commit', '-m', 'fix']' timed out after 30 seconds")
    ∧ (launchAgent ["copilot", "--banner"] "/home/u/klondike-worktrees/proj/wt1" true).call.timeoutSecs = none :=
  ⟨(git_timeout_handling_spec wTimedOut none 5 "fix").1
      ⟨["git", "status", "--porcelain"], some 10⟩ (by decide),
   (git_timeout_handling_spec wTimedOut none 5 "fix").2.2.1
      "Command '['git', 'commit', '-m', 'fix']' timed out after 30 seconds" rfl,
   (git_timeout_handling_spec wTimedOut none 5 "fix").2.2.2
      ["copilot", "--banner"] "/home/u/klondike-worktrees/proj/wt1" true⟩

/-- C6 (amended): a missing executable (`FileNotFoundError`) is caught
and reported through a failure-valued result (`is_git_installed` and
`git_add_all` return `False`; `git_commit` returns `(False, str(e))`),
while an unstartable executable (`PermissionError`) propagates as an
uncaught exception; a command that starts and exits non-zero is
reported through the returned value. -/
theorem spawn_failure_reported_spec (w : GitWorld) (message : String) (path : Option String) :
    (∀ m, w.version = .fileNotFound m → (is_git_installed w).1 = .ok false)
    ∧ (∀ m, w.commitCmd (path.getD w.cwd) message = .fileNotFound m →
        (git_commit w message path).1 = .ok (false, m))
    ∧ (∀ m, w.addAllCmd (path.getD w.cwd) = .fileNotFound m →
        (git_add_all w path).1 = .ok false)
    ∧ (∀ r, w.commitCmd (path.getD w.cwd) message = .completed r →
        (r.returncode == 0) = false →
        (git_commit w message path).1 =
          .ok (false, if pyStrip r.stderr = "" then pyStrip r.stdout else pyStrip r.stderr))
    ∧ (∀ m, w.version = .permissionDenied m →
        (is_git_installed w).1 = .error (.permissionError m))
    ∧ (∀ m, w.commitCmd (path.getD w.cwd) message = .permissionDenied m →
        (git_commit w message path).1 = .error (.permissionError m)) := by
  refine ⟨?_, ?_, ?_, ?_, ?_, ?_⟩
  · intro m hm
    simp [is_git_installed, hm]
  · intro m hm
    simp [git_commit, hm]
  · intro m hm
    simp [git_add_all, hm]
  · intro r hr hrc
    simp [git_commit, hr, hrc]
  · intro m hm
    simp [is_git_installed, hm]
  · intro m hm
    simp [git_commit, hm]

/-- A world in which the `git` executable cannot be found at all. -/
def wSpawnFail : GitWorld :=
  { cwd := "/home/u/proj",
    version := .fileNotFound "[Errno 2] No such file or directory: 'git'",
    revParseGitDir := fun _ => .fileNotFound "[Errno 2] No such file or directory: 'git'",
    revParseHead := fun _ => .fileNotFound "[Errno 2] No such file or directory: 'git'",
    statusPorcelain := fun _ => .fileNotFound "[Errno 2] No such file or directory: 'git'",
    logCmd := fun _ => .fileNotFound "[Errno 2] No such file or directory: 'git'",
    addAllCmd := fun _ => .fileNotFound "[Errno 2] No such file or directory: 'git'",
    commitCmd := fun _ _ => .fileNotFound "[Errno 2] No such file or directory: 'git'" }

/-- A world in which the `git` executable exists but cannot be
started. -/
def wPermDenied : GitWorld :=
  { cwd := "/home/u/proj",
    version := .permissionDenied "[Errno 13] Permission denied: 'git'",
    revParseGitDir := fun _ => .permissionDenied "[Errno 13] Permission denied: 'git'",
    revParseHead := fun _ => .permissionDenied "[Errno 13] Permission denied: 'git'",
    statusPorcelain := fun _ => .permissionDenied "[Errno 13] Permission denied: 'git'",
    logCmd := fun _ => .permissionDenied "[Errno 13] Permission denied: 'git'",
    addAllCmd := fun _ => .permissionDenied "[Errno 13] Permission denied: 'git'",
    commitCmd := fun _ _ => .permissionDenied "[Errno 13] Permission denied: 'git'" }

/-- Counterexample to C6 as stated: with the executable missing,
`git_commit` returns the ordinary value `(False, str(e))` and
`is_git_installed` returns `False` — the `FileNotFoundError` is caught
inside `git.py` — while with an unstartable executable the
`PermissionError` propagates uncaught; in neither case is any
`ProcessSpawnError` (a name absent from the code) raised. -/
theorem spawn_failure_counterexample :
    (git_commit wSpawnFail "fix" none).1 =
      .ok (false, "[Errno 2] No such file or directory: 'git'")
    ∧ (is_git_installed wSpawnFail).1 = .ok false
    ∧ (is_git_installed wPermDenied).1 =
        .error (.permissionError "[Errno 13] Permission denied: 'git'") :=
  ⟨rfl, rfl, rfl⟩

/-- Witness for C6 (amended): the failure values at concrete worlds
with a missing executable and a non-zero exit, and the propagated
exception at a concrete world with an unstartable executable. -/
theorem spawn_failure_reported_spec_witness :
    (is_git_installed wSpawnFail).1 = .ok false
    ∧ (git_commit wSpawnFail "add feature" none).1 =
        .ok (false, "[Errno 2] No such file or directory: 'git'")
    ∧ (git_add_all wSpawnFail none).1 = .ok false
    ∧ (git_commit wNotRepo "add feature" none).1 =
        .ok (false, "fatal: not a git repository")
    ∧ (git_commit wPermDenied "add feature" none).1 =
        .error (.permissionError "[Errno 13] Permission denied: 'git'") :=
  ⟨(spawn_failure_reported_spec wSpawnFail "add feature" none).1
      "[Errno 2] No such file or directory: 'git'" rfl,
   (spawn_failure_reported_spec wSpawnFail "add feature" none).2.1
      "[Errno 2] No such file or directory: 'git'" rfl,
   (spawn_failure_reported_spec wSpawnFail "add feature" none).2.2.1
      "[Errno 2] No such file or directory: 'git'" rfl,
   by
    have h := (spawn_failure_reported_spec wNotRepo "add feature" none).2.2.2.1
      ⟨128, "", "fatal: not a git repository"⟩ rfl (by decide)
    exact h.trans (by rfl),
   (spawn_failure_reported_spec wPermDenied "add feature" none).2.2.2.2.2
      "[Errno 13] Permission denied: 'git'" rfl⟩

/-- Decoding inverts the optional-string encoding. -/
theorem asOptStr_jOptStr (o : Option String) : asOptStr (jOptStr o) = .ok o := by
  cases o <;> rfl

/-- Decoding inverts the `blocked_by` encoding. -/
theorem asBlockedBy_jBlockedBy (b : BlockedBy) : asBlockedBy (jBlockedBy b) = .ok b := by
  cases b <;> rfl

/-- Enum construction inverts `.value` for categories. -/
theorem ofJValue_category_value (c : FeatureCategory) :
    FeatureCategory.ofJValue (.str c.value) = .ok c := by
  cases c <;> rfl

/-- Enum construction inverts `.value` for statuses. -/
theorem ofJValue_status_value (s : FeatureStatus) :
    FeatureStatus.ofJValue (.str s.value) = .ok s := by
  cases s <;> rfl

/-- C8: for every `Feature` whose `category` and `status` fields hold
enum members (not raw strings), `Feature.from_dict (feature.to_dict)`
reconstructs a feature equal to the original: the camelCase
serialization is a lossless round-trip for every field. -/
theorem feature_roundtrip (f : Feature)
    (hc : f.category.isLeft = true) (hs : f.status.isLeft = true) :
    Feature.from_dict (Feature.to_dict f) = .ok f := by
  obtain ⟨c, hcat⟩ : ∃ c, f.category = Sum.inl c := by
    rcases hcc : f.category with c | s
    · exact ⟨c, rfl⟩
    · rw [hcc] at hc
      simp at hc
  obtain ⟨st, hstat⟩ : ∃ st, f.status = Sum.inl st := by
    rcases hss : f.status with st | s
    · exact ⟨st, rfl⟩
    · rw [hss] at hs
      simp at hs
  cases f
  simp only [] at hcat hstat
  subst hcat
  subst hstat
  simp [Feature.from_dict, Feature.to_dict, pyIndex, pyGet, dictFind, asStr, asInt,
        asBool, asStrList, asOptStr_jOptStr, asBlockedBy_jBlockedBy,
        ofJValue_category_value, ofJValue_status_value, Bind.bind, Pure.pure,
        Except.instMonad, Except.bind, Except.pure]

/-- A fully populated concrete feature used by the round-trip
witness. -/
def featRound : Feature :=
  { id := "F007", description := "round trip", category := Sum.inl .api,
    priority := 2, acceptance_criteria := ["a", "b"], passes := true,
    status := Sum.inl .inProgress, dependencies := ["F001"],
    estimated_effort := some "2d", verified_at := some "2025-02-03",
    verified_by := some "tester", evidence_links := ["http://x"],
    blocked_by := .many ["F003", "F004"], last_worked_on := some "2025-02-02",
    notes := some "n" }

/-- Witness for C8: the round trip at a fully populated concrete
feature. -/
theorem feature_roundtrip_witness :
    Feature.from_dict (Feature.to_dict featRound) = .ok featRound :=
  feature_roundtrip featRound rfl rfl

end Klondike
